import Mathlib

/-!
Verification of the MOPSO particle and leader-selection topology subsystem
(`optimizer/mopso/particle.py`), shallowly embedded in Lean 4.

Numeric scalars (numpy floats) are modelled as rationals.  Stochastic
primitives (`Randomizer.rng`) are modelled by passing the drawn values
explicitly: a drawn index, a pair of drawn indices, or a coin.  The
transcendental `np.exp` used by the Boltzmann weighting is a function
parameter, since every claim under study only touches branches that never
evaluate it.
-/

namespace MOPSO

/-- A bound value, carrying the python runtime kind that
`Particle.update_position` dispatches on (`type(lower_bound[i]) == int or
type(lower_bound[i]) == bool`). -/
inductive BVal where
  | int (z : ℤ)
  | bool (b : Bool)
  | float (q : ℚ)
deriving DecidableEq, Repr

/-- Numeric value of a bound entry (python's `True == 1`, `False == 0`). -/
def BVal.toRat : BVal → ℚ
  | .int z => (z : ℚ)
  | .bool b => if b then 1 else 0
  | .float q => q

/-- The kind test of `update_position`:
`type(lower_bound[i]) == int or type(lower_bound[i]) == bool`. -/
def BVal.isIntKind : BVal → Bool
  | .int _ => true
  | .bool _ => true
  | .float _ => false

/-- `np.round`: round half to even (banker's rounding). -/
def roundHalfEven (q : ℚ) : ℤ :=
  let f := ⌊q⌋
  let r := q - (f : ℚ)
  if r < 1/2 then f
  else if r > 1/2 then f + 1
  else if f % 2 = 0 then f else f + 1

/-- `np.clip(x, lo, hi) = np.minimum(np.maximum(x, lo), hi)`. -/
def clip (x lo hi : ℚ) : ℚ := min (max x lo) hi

/-- One step of insertion sort on indices, comparing the values of the
array `l` they point into; equal values keep the earlier index first. -/
def insertIdx (l : List ℚ) (i : ℕ) : List ℕ → List ℕ
  | [] => [i]
  | j :: js => if l.getD i 0 ≤ l.getD j 0 then i :: j :: js else j :: insertIdx l i js

/-- `np.argsort l`: the indices `0 .. l.length - 1` sorted (stably,
ascending) by the value of `l` at each index. -/
def argsort (l : List ℚ) : List ℕ :=
  (List.range l.length).foldr (insertIdx l) []

/-- The particle state of `Particle.__init__`, field for field
(bookkeeping counters included). -/
structure Particle where
  position : List ℚ
  num_objectives : ℕ
  num_particles : ℕ
  velocity : List ℚ
  best_position : List ℚ
  best_fitness : List ℚ
  fitness : List ℚ
  id : ℕ
  topology : String
deriving DecidableEq, Repr

instance : Inhabited Particle :=
  ⟨⟨[], 0, 0, [], [], [], [], 0, "random"⟩⟩

/-- `np.all(xs <= ys)` for equal-length arrays: componentwise `≤`. -/
def allLe : List ℚ → List ℚ → Bool
  | x :: xs, y :: ys => decide (x ≤ y) && allLe xs ys
  | _, _ => true

/-- `Particle.update_position(lower_bound, upper_bound)`: per dimension
`i` in `range(len(lower_bound))`, the new coordinate is
`position[i] + velocity[i]`, rounded to the nearest integer when
`lower_bound[i]` is of int or bool kind; the vector is then clipped
componentwise into `[lower_bound, upper_bound]`. -/
def Particle.update_position (p : Particle) (lower_bound upper_bound : List BVal) :
    Particle :=
  { p with position := (List.range lower_bound.length).map (fun i =>
      let lb := lower_bound.getD i (BVal.float 0)
      let s := p.position.getD i 0 + p.velocity.getD i 0
      let np_i := if lb.isIntKind then ((roundHalfEven s : ℤ) : ℚ) else s
      clip np_i lb.toRat ((upper_bound.getD i (BVal.float 0)).toRat)) }

/-- `Particle.update_best`: overwrite `best_fitness`/`best_position`
when `np.all(self.fitness <= self.best_fitness)`. -/
def Particle.update_best (p : Particle) : Particle :=
  if allLe p.fitness p.best_fitness then
    { p with best_fitness := p.fitness, best_position := p.position }
  else p

/-- `Particle.set_fitness(fitness)`: store the fitness, then run
`update_best`. -/
def Particle.set_fitness (p : Particle) (fitness : List ℚ) : Particle :=
  Particle.update_best { p with fitness := fitness }

/-- `crowding_distance_topology(pareto_front, crowding_distances, higher)`:
`sorted_indexes = np.argsort(crowding_distances[::-1])` when `higher` else
`np.argsort(crowding_distances)`; return
`np.array(pareto_front)[sorted_indexes].tolist()[0]`. -/
def crowding_distance_topology (pareto_front : List Particle)
    (crowding_distances : List ℚ) (higher : Bool) : Particle :=
  let sorted_indexes :=
    if higher then argsort crowding_distances.reverse else argsort crowding_distances
  (sorted_indexes.map (fun i => pareto_front.getD i default)).getD 0 default

/-- `round_robin_topology(pareto_front, id)`:
`pareto_front[id % len(pareto_front)]`. -/
def round_robin_topology (pareto_front : List Particle) (id : ℕ) : Particle :=
  pareto_front.getD (id % pareto_front.length) default

/-- `random_ring_topology(pareto_front, crowding_distances, higher)` with
the two drawn indices `a`, `b` made explicit (the rng loop redraws until
they differ, so callers instantiate them distinct and in range):
if the front has fewer than 2 members return `pareto_front[0]`; otherwise
`pareto_particles = [pareto_front[i] for i in range(n) if i in indexes]`
(ascending index order), the selected distances `crowding_distances[indexes]`
(draw order), and the same argsort-and-take-first step as
`crowding_distance_topology`. -/
def random_ring_topology (pareto_front : List Particle)
    (crowding_distances : List ℚ) (higher : Bool) (a b : ℕ) : Particle :=
  let n := pareto_front.length
  if n < 2 then pareto_front.getD 0 default
  else
    let indexes := [a, b]
    let pareto_particles :=
      ((List.range n).filter (fun i => decide (i ∈ indexes))).map
        (fun i => pareto_front.getD i default)
    let sel := indexes.map (fun i => crowding_distances.getD i 0)
    let sorted_indexes := if higher then argsort sel.reverse else argsort sel
    (sorted_indexes.map (fun i => pareto_particles.getD i default)).getD 0 default

/-- `boltzmann(crowding_distances, higher)`, with the `n == 2` coin flip
(`rng.choice([[1,0],[0,1]])`) passed as `coin` and `np.exp` passed as
`exp` (no claim under study evaluates the `n ≥ 3` branch numerically):
`n == 1` returns `[1]`; `n == 2` returns one of the two one-hot vectors;
otherwise invert each distance as `1/(d + 1e-9)` when `higher`, map
`x ↦ exp (-x)` and normalize by the sum. -/
def boltzmann (exp : ℚ → ℚ) (crowding_distances : List ℚ)
    (higher : Bool) (coin : Bool) : List ℚ :=
  let cd_list := crowding_distances
  let len_cd := cd_list.length
  if len_cd = 1 then [1]
  else if len_cd = 2 then (if coin then [1, 0] else [0, 1])
  else
    let cds := if higher then cd_list.map (fun cd => 1 / (cd + 1/1000000000)) else cd_list
    let pdf := cds.map (fun x => exp (-x))
    pdf.map (fun p => p / pdf.sum)

/-- `weighted_crowding_distance_topology(pareto_front, crowding_distances,
higher)`: feed the Boltzmann pdf to `rng.choice(pareto_front, p = pdf)`,
the categorical sampler being passed explicitly as `choice`. -/
def weighted_crowding_distance_topology (exp : ℚ → ℚ)
    (choice : List Particle → List ℚ → Particle)
    (pareto_front : List Particle) (crowding_distances : List ℚ)
    (higher : Bool) (coin : Bool) : Particle :=
  choice pareto_front (boltzmann exp crowding_distances higher coin)

/-- `Particle.get_pareto_leader(pareto_front, crowding_distances)`:
string-keyed dispatch over the eight topology names, raising
`ValueError(f"MOPSO: {topology} not implemented!")` otherwise.  All rng
draws are explicit parameters: `randIdx` for the `"random"` choice,
`a`/`b` for the random-ring index pair, `coin` and `choice` for the
weighted topologies. -/
def Particle.get_pareto_leader (p : Particle) (exp : ℚ → ℚ)
    (choice : List Particle → List ℚ → Particle)
    (randIdx a b : ℕ) (coin : Bool)
    (pareto_front : List Particle) (crowding_distances : List ℚ) :
    Except String Particle :=
  if p.topology = "random" then
    .ok (pareto_front.getD randIdx default)
  else if p.topology = "higher_crowding_distance" then
    .ok (crowding_distance_topology pareto_front crowding_distances true)
  else if p.topology = "lower_crowding_distance" then
    .ok (crowding_distance_topology pareto_front crowding_distances false)
  else if p.topology = "higher_weighted_crowding_distance" then
    .ok (weighted_crowding_distance_topology exp choice pareto_front crowding_distances true coin)
  else if p.topology = "lower_weighted_crowding_distance" then
    .ok (weighted_crowding_distance_topology exp choice pareto_front crowding_distances false coin)
  else if p.topology = "round_robin" then
    .ok (round_robin_topology pareto_front p.id)
  else if p.topology = "higher_crowding_distance_random_ring" then
    .ok (random_ring_topology pareto_front crowding_distances true a b)
  else if p.topology = "lower_crowding_distance_random_ring" then
    .ok (random_ring_topology pareto_front crowding_distances false a b)
  else
    .error ("MOPSO: " ++ p.topology ++ " not implemented!")

/-- A concrete particle, used to instantiate theorems at concrete inputs. -/
def mkParticle (i : ℕ) (t : String) : Particle :=
  { position := [(i : ℚ)], num_objectives := 2, num_particles := 3,
    velocity := [0], best_position := [(i : ℚ)], best_fitness := [100, 100],
    fitness := [1, 1], id := i, topology := t }

/-- A concrete particle with fractional position and velocity, used to
instantiate the update theorems at concrete inputs. -/
def pWitness : Particle :=
  { position := [3/2], num_objectives := 1, num_particles := 1,
    velocity := [1/4], best_position := [3/2], best_fitness := [7],
    fitness := [1], id := 0, topology := "round_robin" }

/-! ## Helper lemmas -/

theorem range_two : List.range 2 = [0, 1] := rfl

theorem argsort_pair (a b : ℚ) :
    argsort [a, b] = if a ≤ b then [0, 1] else [1, 0] := by
  show (List.range 2).foldr (insertIdx [a, b]) [] = _
  by_cases h : a ≤ b <;>
    simp [range_two, insertIdx, h]

theorem isIntKind_toRat {v : BVal} (h : v.isIntKind = true) :
    ∃ k : ℤ, v.toRat = (k : ℚ) := by
  cases v with
  | int z => exact ⟨z, rfl⟩
  | bool b =>
      cases b
      · exact ⟨0, by simp [BVal.toRat]⟩
      · exact ⟨1, by simp [BVal.toRat]⟩
  | float q => simp [BVal.isIntKind] at h

/-- Pointwise description of `update_position`: coordinate `i` is the sum
`position[i] + velocity[i]`, rounded when `lower_bound[i]` is of int or
bool kind, then clipped into the bounds for dimension `i`. -/
theorem update_position_getD (p : Particle) (lb ub : List BVal) (i : ℕ)
    (hi : i < lb.length) :
    (p.update_position lb ub).position.getD i 0 =
      clip (if (lb.getD i (BVal.float 0)).isIntKind
            then ((roundHalfEven (p.position.getD i 0 + p.velocity.getD i 0) : ℤ) : ℚ)
            else p.position.getD i 0 + p.velocity.getD i 0)
        (lb.getD i (BVal.float 0)).toRat ((ub.getD i (BVal.float 0)).toRat) := by
  rw [Particle.update_position]
  rw [List.getD_eq_getElem _ _ (by simpa using hi)]
  simp

theorem allLe_iff : ∀ (xs ys : List ℚ), xs.length = ys.length →
    (allLe xs ys = true ↔ ∀ i, i < xs.length → xs.getD i 0 ≤ ys.getD i 0)
  | [], [] => by simp [allLe]
  | [], _ :: _ => by intro h; simp at h
  | _ :: _, [] => by intro h; simp at h
  | x :: xs, y :: ys => by
    intro h
    simp only [allLe, Bool.and_eq_true, decide_eq_true_eq]
    rw [allLe_iff xs ys (by simpa using h)]
    constructor
    · rintro ⟨hxy, hrest⟩ i hi
      cases i with
      | zero => simpa using hxy
      | succ n => simpa using hrest n (by simpa using hi)
    · intro hall
      refine ⟨by simpa using hall 0 (by simp), fun i hi => ?_⟩
      simpa using hall (i + 1) (by simpa using hi)

/-! ## Claim theorems -/

/-- Claim C1 (refuted on the code): with the non-empty front
`[P0, P1, P2]` and crowding distances `[3, 1, 2]`, the
`higher_crowding_distance` topology is claimed to return the member with
the globally maximal crowding distance, i.e. `P0` (distance 3).  The code
computes `np.argsort(crowding_distances[::-1])` — the argsort of the
reversed array, not the reversed argsort — and returns `P1`, the member
whose crowding distance 1 is the global minimum. -/
theorem C1_higher_crowding_distance_failing_input :
    crowding_distance_topology
        [mkParticle 0 "higher_crowding_distance", mkParticle 1 "higher_crowding_distance",
          mkParticle 2 "higher_crowding_distance"]
        [3, 1, 2] true
      = mkParticle 1 "higher_crowding_distance"
    ∧ mkParticle 1 "higher_crowding_distance" ≠ mkParticle 0 "higher_crowding_distance" := by
  constructor
  · rfl
  · decide

/-- Claim C2 (refuted on the code): with front `[P0, P1]`, crowding
distances `[5, 1]` and the sampled index pair `(1, 0)`, the claim says the
`higher` random-ring variant returns the sampled member with the higher
crowding distance (`P0`, distance 5) and the `lower` variant the one with
the lower distance (`P1`, distance 1).  The code gathers the two sampled
particles in ascending index order but their distances in draw order, so
at this draw the `higher` variant returns `P1` (distance 1) and the
`lower` variant returns `P0` (distance 5) — each the opposite member. -/
theorem C2_random_ring_failing_input :
    random_ring_topology [mkParticle 0 "ring", mkParticle 1 "ring"] [5, 1] true 1 0
      = mkParticle 1 "ring"
    ∧ random_ring_topology [mkParticle 0 "ring", mkParticle 1 "ring"] [5, 1] false 1 0
      = mkParticle 0 "ring"
    ∧ mkParticle 0 "ring" ≠ mkParticle 1 "ring" := by
  refine ⟨rfl, rfl, by decide⟩

/-- Claim C6: for a pareto front of exactly two members with crowding
distances `[d0, d1]`, `d0 > d1`, the `higher_crowding_distance` topology
returns the first member (distance `d0`) and the
`lower_crowding_distance` topology returns the second (distance `d1`). -/
theorem C6_crowding_distance_pair (p0 p1 : Particle) (d0 d1 : ℚ) (h : d1 < d0) :
    crowding_distance_topology [p0, p1] [d0, d1] true = p0
    ∧ crowding_distance_topology [p0, p1] [d0, d1] false = p1 := by
  constructor
  · have hrev : ([d0, d1] : List ℚ).reverse = [d1, d0] := rfl
    simp [crowding_distance_topology, hrev, argsort_pair, le_of_lt h]
  · simp [crowding_distance_topology, argsort_pair, not_le.mpr h]

/-- Witness for C6 at `d0 = 2 > 1 = d1` and two concrete particles. -/
theorem C6_crowding_distance_pair_witness :
    crowding_distance_topology [mkParticle 0 "random", mkParticle 1 "random"] [2, 1] true
      = mkParticle 0 "random"
    ∧ crowding_distance_topology [mkParticle 0 "random", mkParticle 1 "random"] [2, 1] false
      = mkParticle 1 "random" :=
  C6_crowding_distance_pair (mkParticle 0 "random") (mkParticle 1 "random") 2 1 (by norm_num)

/-- Claim C9: on a front of size exactly 1, the random-ring topology
returns the sole member, for both the `higher` and the `lower` variant and
for all drawn index pairs, and never reaches an error path. -/
theorem C9_random_ring_singleton (p : Particle) (crowding_distances : List ℚ)
    (higher : Bool) (a b : ℕ) :
    random_ring_topology [p] crowding_distances higher a b = p := by
  simp [random_ring_topology]

/-- Claim C3: in `update_position`, a dimension whose lower-bound value is
of int or bool kind receives `position[i] + velocity[i]` rounded to the
nearest integer before clipping, a dimension with a non-integer bound the
unrounded sum; and when both bound values of the dimension are of integer
or boolean kind the resulting coordinate is an integer value. -/
theorem C3_update_position_integer_dimensions (p : Particle) (lb ub : List BVal)
    (i : ℕ) (hi : i < lb.length) :
    ((p.update_position lb ub).position.getD i 0 =
      clip (if (lb.getD i (BVal.float 0)).isIntKind
            then ((roundHalfEven (p.position.getD i 0 + p.velocity.getD i 0) : ℤ) : ℚ)
            else p.position.getD i 0 + p.velocity.getD i 0)
        (lb.getD i (BVal.float 0)).toRat ((ub.getD i (BVal.float 0)).toRat))
    ∧ ((lb.getD i (BVal.float 0)).isIntKind = true →
        (ub.getD i (BVal.float 0)).isIntKind = true →
        ∃ k : ℤ, (p.update_position lb ub).position.getD i 0 = (k : ℚ)) := by
  refine ⟨update_position_getD p lb ub i hi, fun hl hu => ?_⟩
  obtain ⟨k1, hk1⟩ := isIntKind_toRat hl
  obtain ⟨k2, hk2⟩ := isIntKind_toRat hu
  refine ⟨min (max (roundHalfEven (p.position.getD i 0 + p.velocity.getD i 0)) k1) k2, ?_⟩
  rw [update_position_getD p lb ub i hi, hl, hk1, hk2]
  simp only [if_true, clip]
  push_cast
  rfl

/-- Witness for C3: position `3/2`, velocity `1/4`, bounds `[0, 5]` of int
kind; the coordinate `7/4` rounds to `2` and stays an integer. -/
theorem C3_update_position_integer_dimensions_witness :
    ∃ k : ℤ, (pWitness.update_position [BVal.int 0] [BVal.int 5]).position.getD 0 0 = (k : ℚ) :=
  (C3_update_position_integer_dimensions pWitness [BVal.int 0] [BVal.int 5] 0
    (by decide)).2 rfl rfl

/-- Claim C4: `set_fitness` stores the fitness, and overwrites
`best_fitness`/`best_position` (with the new fitness and the current
position) exactly when every component of the new fitness is `≤` the
corresponding component of the previous best; in particular an equal
fitness replaces the best, and otherwise both best fields are unchanged. -/
theorem C4_set_fitness_weak_dominance (p : Particle) (f : List ℚ)
    (hlen : f.length = p.best_fitness.length) :
    (p.set_fitness f).fitness = f
    ∧ ((∀ i, i < f.length → f.getD i 0 ≤ p.best_fitness.getD i 0) →
        (p.set_fitness f).best_fitness = f ∧ (p.set_fitness f).best_position = p.position)
    ∧ ((¬ ∀ i, i < f.length → f.getD i 0 ≤ p.best_fitness.getD i 0) →
        (p.set_fitness f).best_fitness = p.best_fitness
        ∧ (p.set_fitness f).best_position = p.best_position)
    ∧ (f = p.best_fitness →
        (p.set_fitness f).best_fitness = f ∧ (p.set_fitness f).best_position = p.position) := by
  have key := allLe_iff f p.best_fitness hlen
  unfold Particle.set_fitness Particle.update_best
  cases hc : allLe f p.best_fitness with
  | true =>
      simp only [hc, if_true]
      exact ⟨by trivial, fun _ => ⟨by trivial, by trivial⟩,
        fun hn => absurd (key.mp hc) hn, fun _ => ⟨by trivial, by trivial⟩⟩
  | false =>
      simp only [hc, Bool.false_eq_true, if_false]
      refine ⟨by trivial, fun hall => ?_, fun _ => ⟨by trivial, by trivial⟩, fun he => ?_⟩
      · rw [key.mpr hall] at hc; cases hc
      · subst he
        rw [key.mpr (fun i _ => le_refl _)] at hc; cases hc

/-- Witness for C4: a particle with best fitness `[100, 100]` receiving
fitness `[5, 200]` (not componentwise `≤`) keeps its best fields. -/
theorem C4_set_fitness_weak_dominance_witness :
    ((mkParticle 0 "random").set_fitness [5, 200]).best_fitness
        = (mkParticle 0 "random").best_fitness
    ∧ ((mkParticle 0 "random").set_fitness [5, 200]).best_position
        = (mkParticle 0 "random").best_position :=
  (C4_set_fitness_weak_dominance (mkParticle 0 "random") [5, 200] rfl).2.2.1 (by decide)

/-- Claim C5: after `update_position(lower_bound, upper_bound)` with
`lower_bound[i] ≤ upper_bound[i]` for every dimension, the position has
one coordinate per dimension and every coordinate lies within
`[lower_bound[i], upper_bound[i]]` inclusive. -/
theorem C5_update_position_within_bounds (p : Particle) (lb ub : List BVal)
    (hbd : ∀ i, i < lb.length →
      (lb.getD i (BVal.float 0)).toRat ≤ (ub.getD i (BVal.float 0)).toRat) :
    (p.update_position lb ub).position.length = lb.length
    ∧ ∀ i, i < lb.length →
        (lb.getD i (BVal.float 0)).toRat ≤ (p.update_position lb ub).position.getD i 0
        ∧ (p.update_position lb ub).position.getD i 0 ≤ (ub.getD i (BVal.float 0)).toRat := by
  constructor
  · simp [Particle.update_position]
  · intro i hi
    rw [update_position_getD p lb ub i hi]
    unfold clip
    exact ⟨le_min (le_max_right _ _) (hbd i hi), min_le_right _ _⟩

/-- Witness for C5: position `3/2` plus velocity `1/4` clipped into the
float bounds `[0, 1]` lands inside the bounds. -/
theorem C5_update_position_within_bounds_witness :
    (BVal.float 0).toRat
        ≤ (pWitness.update_position [BVal.float 0] [BVal.float 1]).position.getD 0 0
    ∧ (pWitness.update_position [BVal.float 0] [BVal.float 1]).position.getD 0 0
        ≤ (BVal.float 1).toRat :=
  (C5_update_position_within_bounds pWitness [BVal.float 0] [BVal.float 1]
    (by decide)).2 0 (by decide)

/-- Claim C7: the boltzmann weighting returns `[1]` for a front of size 1,
and for a front of size 2 it returns one of the two one-hot vectors
`[1, 0]` / `[0, 1]` — one per coin outcome, never a non-degenerate blend —
for every crowding-distance pair and either value of `higher`. -/
theorem C7_boltzmann_small_fronts (exp : ℚ → ℚ) (higher coin : Bool) (d d0 d1 : ℚ) :
    boltzmann exp [d] higher coin = [1]
    ∧ boltzmann exp [d0, d1] higher true = [1, 0]
    ∧ boltzmann exp [d0, d1] higher false = [0, 1]
    ∧ (boltzmann exp [d0, d1] higher coin = [1, 0]
        ∨ boltzmann exp [d0, d1] higher coin = [0, 1]) := by
  refine ⟨by simp [boltzmann], by simp [boltzmann], by simp [boltzmann], ?_⟩
  cases coin
  · exact Or.inr (by simp [boltzmann])
  · exact Or.inl (by simp [boltzmann])

/-- Claim C8: for any topology string other than the eight recognized
names, `get_pareto_leader` produces the error
`"MOPSO: <topology> not implemented!"` naming the offending string, and no
leader is returned. -/
theorem C8_unknown_topology_error (p : Particle) (exp : ℚ → ℚ)
    (choice : List Particle → List ℚ → Particle) (randIdx a b : ℕ) (coin : Bool)
    (pareto_front : List Particle) (crowding_distances : List ℚ)
    (h : p.topology ∉ (["random", "higher_crowding_distance", "lower_crowding_distance",
        "higher_weighted_crowding_distance", "lower_weighted_crowding_distance",
        "round_robin", "higher_crowding_distance_random_ring",
        "lower_crowding_distance_random_ring"] : List String)) :
    p.get_pareto_leader exp choice randIdx a b coin pareto_front crowding_distances
      = Except.error ("MOPSO: " ++ p.topology ++ " not implemented!")
    ∧ ∀ q, p.get_pareto_leader exp choice randIdx a b coin pareto_front crowding_distances
        ≠ Except.ok q := by
  simp only [List.mem_cons, List.not_mem_nil, or_false, not_or] at h
  obtain ⟨h1, h2, h3, h4, h5, h6, h7, h8⟩ := h
  have heq : p.get_pareto_leader exp choice randIdx a b coin pareto_front crowding_distances
      = Except.error ("MOPSO: " ++ p.topology ++ " not implemented!") := by
    unfold Particle.get_pareto_leader
    simp [h1, h2, h3, h4, h5, h6, h7, h8]
  exact ⟨heq, fun q hq => by rw [heq] at hq; cases hq⟩

/-- Witness for C8: a particle bound to the unrecognized topology
`"ring"` gets the error naming `"ring"`. -/
theorem C8_unknown_topology_error_witness :
    (mkParticle 0 "ring").get_pareto_leader (fun x => x) (fun _ _ => default) 0 0 1 true [] []
      = Except.error ("MOPSO: " ++ "ring" ++ " not implemented!") :=
  (C8_unknown_topology_error (mkParticle 0 "ring") (fun x => x) (fun _ _ => default)
    0 0 1 true [] [] (by decide)).1

/-- Claim C10: for crowding-distance sequences of length at most 2, the
boltzmann weighting — and with it the weighted-crowding-distance topology —
gives the same result for `higher = true` and `higher = false`: the flag
only reaches the branch for fronts of 3 or more members. -/
theorem C10_boltzmann_flag_irrelevant_small_fronts (exp : ℚ → ℚ)
    (choice : List Particle → List ℚ → Particle) (pareto_front : List Particle)
    (crowding_distances : List ℚ) (coin : Bool)
    (h : crowding_distances.length ≤ 2) :
    boltzmann exp crowding_distances true coin = boltzmann exp crowding_distances false coin
    ∧ weighted_crowding_distance_topology exp choice pareto_front crowding_distances true coin
      = weighted_crowding_distance_topology exp choice pareto_front crowding_distances false coin := by
  have hb : boltzmann exp crowding_distances true coin
      = boltzmann exp crowding_distances false coin := by
    unfold boltzmann
    rcases crowding_distances with _ | ⟨x, _ | ⟨y, _ | ⟨z, t⟩⟩⟩
    · simp
    · simp
    · simp
    · simp at h
  exact ⟨hb, by simp [weighted_crowding_distance_topology, hb]⟩

/-- Witness for C10 at the two-element distance list `[1, 2]`. -/
theorem C10_boltzmann_flag_irrelevant_small_fronts_witness :
    boltzmann (fun x => x) [1, 2] true true = boltzmann (fun x => x) [1, 2] false true :=
  (C10_boltzmann_flag_irrelevant_small_fronts (fun x => x) (fun _ _ => default) [] [1, 2] true
    (by decide)).1

end MOPSO
